import Mathlib

/-!
Verification of the metrics/validation module `src/validate_extraction.py`
of the clinical-report extraction repository.

We shallowly embed the JSON data model and the functions `_load_json`,
`_get_nested`, `_ensure_list`, `compute_exact_match_accuracy`,
`compute_list_recall`, `run_validation` and the error-propagating entry
point `main`.  Python floats are modelled by exact rationals (the module
only ever divides two nonnegative integers), Python `str`/`strip` by
explicit functions on our JSON values.
-/

namespace ValidateExtraction

/-- JSON values as produced by `json.load` (floats are not needed by any
record field the module consumes; integers model numeric leaves). -/
inductive JsonVal where
  | null
  | bool (b : Bool)
  | int (n : Int)
  | str (s : String)
  | list (xs : List JsonVal)
  | obj (fields : List (String × JsonVal))
deriving Repr

mutual

/-- Boolean equality on JSON values. -/
def JsonVal.beq : JsonVal → JsonVal → Bool
  | .null, .null => true
  | .bool a, .bool b => a == b
  | .int a, .int b => a == b
  | .str a, .str b => a == b
  | .list xs, .list ys => JsonVal.beqList xs ys
  | .obj xs, .obj ys => JsonVal.beqFields xs ys
  | _, _ => false

def JsonVal.beqList : List JsonVal → List JsonVal → Bool
  | [], [] => true
  | x :: xs, y :: ys => JsonVal.beq x y && JsonVal.beqList xs ys
  | _, _ => false

def JsonVal.beqFields : List (String × JsonVal) → List (String × JsonVal) → Bool
  | [], [] => true
  | (k, v) :: xs, (k', v') :: ys => k == k' && JsonVal.beq v v' && JsonVal.beqFields xs ys
  | _, _ => false

end

instance : BEq JsonVal := ⟨JsonVal.beq⟩

mutual

theorem JsonVal.beq_iff : ∀ a b : JsonVal, JsonVal.beq a b = true ↔ a = b
  | .null, b => by cases b <;> simp [JsonVal.beq]
  | .bool a, b => by cases b <;> simp [JsonVal.beq]
  | .int a, b => by cases b <;> simp [JsonVal.beq]
  | .str a, b => by cases b <;> simp [JsonVal.beq]
  | .list xs, b => by
      cases b <;> simp [JsonVal.beq]
      exact JsonVal.beqList_iff xs _
  | .obj xs, b => by
      cases b <;> simp [JsonVal.beq]
      exact JsonVal.beqFields_iff xs _

theorem JsonVal.beqList_iff : ∀ xs ys : List JsonVal, JsonVal.beqList xs ys = true ↔ xs = ys
  | [], ys => by cases ys <;> simp [JsonVal.beqList]
  | x :: xs, ys => by
      cases ys with
      | nil => simp [JsonVal.beqList]
      | cons y ys =>
          simp only [JsonVal.beqList, Bool.and_eq_true, List.cons.injEq]
          rw [JsonVal.beq_iff x y, JsonVal.beqList_iff xs ys]

theorem JsonVal.beqFields_iff :
    ∀ xs ys : List (String × JsonVal), JsonVal.beqFields xs ys = true ↔ xs = ys
  | [], ys => by cases ys <;> simp [JsonVal.beqFields]
  | (k, v) :: xs, ys => by
      cases ys with
      | nil => simp [JsonVal.beqFields]
      | cons y ys =>
          obtain ⟨k', v'⟩ := y
          simp only [JsonVal.beqFields, Bool.and_eq_true, List.cons.injEq, Prod.mk.injEq,
            beq_iff_eq]
          rw [JsonVal.beq_iff v v', JsonVal.beqFields_iff xs ys]

end

instance : DecidableEq JsonVal := fun a b =>
  decidable_of_iff (JsonVal.beq a b = true) (JsonVal.beq_iff a b)

/-- `isinstance(v, list)`. -/
def JsonVal.isList : JsonVal → Bool
  | .list _ => true
  | _ => false

/-- `isinstance(v, str)`. -/
def JsonVal.isStr : JsonVal → Bool
  | .str _ => true
  | _ => false

/-- Python truthiness (`bool(v)`) on JSON values. -/
def truthy : JsonVal → Bool
  | .null => false
  | .bool b => b
  | .int n => n != 0
  | .str s => s != ""
  | .list xs => !xs.isEmpty
  | .obj fs => !fs.isEmpty

/-- The characters stripped by Python `str.strip()` (Unicode whitespace). -/
def isPyWhitespace (c : Char) : Bool :=
  c = ' ' || c = '\t' || c = '\n' || c = '\r' || c.toNat = 0x0b || c.toNat = 0x0c ||
  (0x1c ≤ c.toNat && c.toNat ≤ 0x1f) || c.toNat = 0x85 || c.toNat = 0xa0 ||
  c.toNat = 0x1680 || (0x2000 ≤ c.toNat && c.toNat ≤ 0x200a) ||
  c.toNat = 0x2028 || c.toNat = 0x2029 || c.toNat = 0x202f || c.toNat = 0x205f ||
  c.toNat = 0x3000

/-- Python `s.strip()`: drop leading and trailing whitespace. -/
def pyStrip (s : String) : String :=
  String.mk (((s.toList.dropWhile isPyWhitespace).reverse.dropWhile isPyWhitespace).reverse)

/-- Two lowercase hex digits of a byte, for Python `repr` escapes. -/
def hexByte (n : Nat) : String :=
  let d := fun (k : Nat) => Char.ofNat (if k < 10 then 48 + k else 87 + k)
  String.mk [d (n / 16 % 16), d (n % 16)]

/-- Escape one character inside a Python string `repr` with quote `q`. -/
def pyEscapeChar (q c : Char) : String :=
  if c = '\\' then "\\\\"
  else if c = q then String.mk ['\\', q]
  else if c = '\n' then "\\n"
  else if c = '\r' then "\\r"
  else if c = '\t' then "\\t"
  else if c.toNat < 32 || c.toNat = 127 then "\\x" ++ hexByte c.toNat
  else String.mk [c]

/-- Python `repr` of a string: single quotes unless the string contains a
single quote and no double quote. -/
def pyReprString (s : String) : String :=
  let sq : Char := Char.ofNat 39
  let q : Char := if s.toList.contains sq && !s.toList.contains '"' then '"' else sq
  String.mk [q] ++ String.join (s.toList.map (pyEscapeChar q)) ++ String.mk [q]

mutual

/-- Python `repr` of a JSON value. -/
def pyRepr : JsonVal → String
  | .null => "None"
  | .bool true => "True"
  | .bool false => "False"
  | .int n => toString n
  | .str s => pyReprString s
  | .list xs => "[" ++ String.intercalate ", " (pyReprList xs) ++ "]"
  | .obj fs => "\x7b" ++ String.intercalate ", " (pyReprFields fs) ++ "\x7d"

def pyReprList : List JsonVal → List String
  | [] => []
  | x :: xs => pyRepr x :: pyReprList xs

def pyReprFields : List (String × JsonVal) → List String
  | [] => []
  | (k, v) :: fs => (pyReprString k ++ ": " ++ pyRepr v) :: pyReprFields fs

end

/-- Python `str` of a JSON value: the string itself for strings, otherwise
the same text as `repr`. -/
def pyStr : JsonVal → String
  | .str s => s
  | v => pyRepr v

/-- Python dict lookup on an association list (keys are unique in a dict;
we return the first binding). `lookup fs k = some v` models
`k in fs ∧ fs[k] = v`. -/
def lookup : List (String × JsonVal) → String → Option JsonVal
  | [], _ => none
  | (k', v) :: rest, k => if k' = k then some v else lookup rest k

/-- The traversal loop of `_get_nested`: follow the keys, `none` as soon as
the current value is not a dict or the key is absent. -/
def walk : JsonVal → List String → Option JsonVal
  | cur, [] => some cur
  | cur, k :: ks =>
    match cur with
    | .obj fields =>
      match lookup fields k with
      | some v => walk v ks
      | none => none
    | _ => none

/-- `_get_nested(obj, *keys, default_list=...)`.  `wantList` is
`default_list is not None`.  Mirrors the source: the loop returns the
default (`[]` when `wantList`, else `""`) on any missing segment; then a
non-list final value under `wantList` yields `[]`; a `None` final value
yields the default. -/
def getNested (o : JsonVal) (keys : List String) (wantList : Bool) : JsonVal :=
  match walk o keys with
  | none => if wantList then .list [] else .str ""
  | some cur =>
    if wantList then
      match cur with
      | .list xs => .list xs
      | _ => .list []
    else
      if cur = .null then .str "" else cur

/-- `_ensure_list(val)`: `None` or non-list becomes `[]`, a list stays. -/
def ensureList : JsonVal → List JsonVal
  | .list xs => xs
  | _ => []

/-- The scalar normalization inside `compute_exact_match_accuracy`:
`"" if g is None or g == "" else str(g).strip()`. -/
def normalizeScalar (v : JsonVal) : String :=
  if v = JsonVal.null ∨ v = JsonVal.str "" then "" else pyStrip (pyStr v)

/-- `str(item).strip()`, applied to gold and predicted list items in
`compute_list_recall`. -/
def stripItem (v : JsonVal) : String := pyStrip (pyStr v)

/-- `compute_exact_match_accuracy(gold_list, pred_list, getter_gold,
getter_pred)`: 0 when `gold_list` is empty, else the number of zipped
pairs whose normalized getter values coincide, divided by
`len(gold_list)`. Floats are modelled exactly in `ℚ`. -/
def computeExactMatchAccuracy (goldList predList : List JsonVal)
    (getterGold getterPred : JsonVal → JsonVal) : ℚ :=
  let n := goldList.length
  if n = 0 then 0
  else
    let correct := (goldList.zip predList).countP fun gp =>
      normalizeScalar (getterGold gp.1) == normalizeScalar (getterPred gp.2)
    (correct : ℚ) / (n : ℚ)

/-- Per-record true positives in `compute_list_recall`: gold items whose
stripped string occurs among the stripped predicted items. -/
def recordTP (getterGold getterPred : JsonVal → JsonVal) (gold pred : JsonVal) : Nat :=
  let gItems := ensureList (getterGold gold)
  let pStrs := (ensureList (getterPred pred)).map stripItem
  gItems.countP fun gi => decide (stripItem gi ∈ pStrs)

/-- Per-record false negatives in `compute_list_recall`: gold items whose
stripped string does not occur among the stripped predicted items. -/
def recordFN (getterGold getterPred : JsonVal → JsonVal) (gold pred : JsonVal) : Nat :=
  let gItems := ensureList (getterGold gold)
  let pStrs := (ensureList (getterPred pred)).map stripItem
  gItems.countP fun gi => !decide (stripItem gi ∈ pStrs)

/-- `compute_list_recall(gold_list, pred_list, getter_gold, getter_pred)`:
micro-averaged recall; 1 when the total number of relevant gold items is
zero. -/
def computeListRecall (goldList predList : List JsonVal)
    (getterGold getterPred : JsonVal → JsonVal) : ℚ :=
  let pairs := goldList.zip predList
  let totalTP := (pairs.map fun gp => recordTP getterGold getterPred gp.1 gp.2).sum
  let totalFN := (pairs.map fun gp => recordFN getterGold getterPred gp.1 gp.2).sum
  if totalTP + totalFN = 0 then 1
  else (totalTP : ℚ) / ((totalTP : ℚ) + (totalFN : ℚ))

/-- The scalar-getter pattern of `run_validation`:
`_get_nested(obj, *keys) or ""`. -/
def scalarGet (keys : List String) (o : JsonVal) : JsonVal :=
  let v := getNested o keys false
  if truthy v then v else .str ""

/-- The list-getter pattern of `run_validation`:
`_ensure_list(_get_nested(obj, *keys, default_list=[]))` (a Python list,
re-wrapped as a JSON value). -/
def listGet (keys : List String) (o : JsonVal) : JsonVal :=
  .list (ensureList (getNested o keys true))

def getDiabetesType : JsonVal → JsonVal := scalarGet ["diabetes", "type"]

def getDiabetesStatus : JsonVal → JsonVal := scalarGet ["diabetes", "status"]

def getDiabetesA1c : JsonVal → JsonVal := listGet ["diabetes", "a1c_values"]

def getDiabetesGlucose : JsonVal → JsonVal := listGet ["diabetes", "glucose_values"]

def getBpStatus : JsonVal → JsonVal := scalarGet ["blood_pressure", "hypertension_status"]

def getBpReadings : JsonVal → JsonVal := listGet ["blood_pressure", "bp_readings"]

/-- The metric mapping returned by `run_validation`. -/
structure Metrics where
  n_samples : Nat
  diabetes_type_accuracy : ℚ
  diabetes_status_accuracy : ℚ
  diabetes_a1c_recall : ℚ
  diabetes_glucose_recall : ℚ
  bp_hypertension_status_accuracy : ℚ
  bp_readings_recall : ℚ
deriving Repr, DecidableEq

/-- The pure part of `run_validation`, after both JSON lists are loaded:
truncate both to the minimum length and compute the six metrics, with a
fixed result when the minimum is zero. -/
def runValidationCore (goldList predList : List JsonVal) : Metrics :=
  let n := min goldList.length predList.length
  if n = 0 then
    { n_samples := 0
      diabetes_type_accuracy := 0
      diabetes_status_accuracy := 0
      diabetes_a1c_recall := 1
      diabetes_glucose_recall := 1
      bp_hypertension_status_accuracy := 0
      bp_readings_recall := 1 }
  else
    let goldSlice := goldList.take n
    let predSlice := predList.take n
    { n_samples := n
      diabetes_type_accuracy :=
        computeExactMatchAccuracy goldSlice predSlice getDiabetesType getDiabetesType
      diabetes_status_accuracy :=
        computeExactMatchAccuracy goldSlice predSlice getDiabetesStatus getDiabetesStatus
      diabetes_a1c_recall :=
        computeListRecall goldSlice predSlice getDiabetesA1c getDiabetesA1c
      diabetes_glucose_recall :=
        computeListRecall goldSlice predSlice getDiabetesGlucose getDiabetesGlucose
      bp_hypertension_status_accuracy :=
        computeExactMatchAccuracy goldSlice predSlice getBpStatus getBpStatus
      bp_readings_recall :=
        computeListRecall goldSlice predSlice getBpReadings getBpReadings }

/-- The errors `_load_json` can raise: `FileNotFoundError`,
`json.JSONDecodeError` (malformed content), `ValueError` (top level not a
list). -/
inductive LoadError where
  | notFound (msg : String)
  | decodeError (msg : String)
  | formatError (msg : String)
deriving Repr, DecidableEq

/-- The user-visible message of a load error. -/
def LoadError.msg : LoadError → String
  | .notFound m => m
  | .decodeError m => m
  | .formatError m => m

/-- `type(data).__name__` for the format-error message. -/
def typeName : JsonVal → String
  | .null => "NoneType"
  | .bool _ => "bool"
  | .int _ => "int"
  | .str _ => "str"
  | .list _ => "list"
  | .obj _ => "dict"

/-- What the file system holds at a path: `none` when the path does not
exist, `some (Except.error m)` when the bytes are not valid JSON,
`some (Except.ok v)` when they parse to `v`. -/
def FileContent := Option (Except String JsonVal)

/-- `_load_json(path)`: not-found if the path does not exist, the decode
error if the content is malformed, a format error if the parsed top-level
value is not a list, else the list. -/
def loadJson (path : String) (content : FileContent) : Except LoadError (List JsonVal) :=
  match content with
  | none => .error (.notFound ("Missing file: " ++ path))
  | some (.error m) => .error (.decodeError m)
  | some (.ok v) =>
    match v with
    | .list xs => .ok xs
    | _ => .error (.formatError ("Expected a JSON list in " ++ path ++ ", got " ++ typeName v))

/-- `run_validation(gold_path, extraction_path)`: load gold, then
predictions (the first failure propagates), then compute the metrics. -/
def runValidationFromFiles (goldPath predPath : String) (goldContent predContent : FileContent) :
    Except LoadError Metrics :=
  match loadJson goldPath goldContent with
  | .error e => .error e
  | .ok goldList =>
    match loadJson predPath predContent with
    | .error e => .error e
    | .ok predList => .ok (runValidationCore goldList predList)

/-- The observable outcome of `main` with two explicit paths: exit code,
the metrics report that was printed (if any), and the single error message
printed to stderr (if any). -/
structure RunOutcome where
  exitCode : Nat
  report : Option Metrics
  errMsg : Option String
deriving Repr, DecidableEq

/-- `main()` on two resolved paths: print the report and return 0, or
catch the load error, print one `Error: ...` message and return 1. -/
def mainRun (goldPath predPath : String) (goldContent predContent : FileContent) :
    RunOutcome :=
  match runValidationFromFiles goldPath predPath goldContent predContent with
  | .ok m => { exitCode := 0, report := some m, errMsg := none }
  | .error e => { exitCode := 1, report := none, errMsg := some ("Error: " ++ e.msg) }

/-! ## Spec-side definitions

These follow the wording of the specification and are compared with the
source-side definitions above. -/

/-- Per the spec: "normalize both values: null or empty-string → empty
string; otherwise stringify and strip surrounding whitespace". -/
def specNormalize (v : JsonVal) : String :=
  if v = JsonVal.null ∨ v = JsonVal.str "" then "" else pyStrip (pyStr v)

/-- Per the spec: the path misses when "any intermediate value is not a
mapping, or the key is absent". -/
def pathMissing (o : JsonVal) : List String → Bool
  | [] => false
  | k :: ks =>
    match o with
    | .obj fields =>
      match lookup fields k with
      | some v => pathMissing v ks
      | none => true
    | _ => true

theorem normalizeScalar_eq_specNormalize : normalizeScalar = specNormalize := rfl

/-! ## Helper lemmas -/

theorem countP_zip_eq_sum (P : JsonVal × JsonVal → Bool) :
    ∀ g p : List JsonVal,
      (g.zip p).countP P =
        ∑ i in Finset.range (min g.length p.length),
          if P (g.getD i .null, p.getD i .null) then 1 else 0
  | [], p => by simp
  | a :: g, [] => by simp
  | a :: g, b :: p => by
      rw [List.zip_cons_cons, List.countP_cons, List.length_cons, List.length_cons,
        Nat.succ_min_succ, Finset.sum_range_succ']
      simp only [List.getD_cons_succ, List.getD_cons_zero]
      rw [countP_zip_eq_sum P g p]

/-! ## Claims -/

/-- C1: on equal-length record sequences, `compute_exact_match_accuracy`
returns 0 when the sequences are empty, and otherwise the number of
aligned pairs whose getter values normalize (null/empty → empty string,
else stringify and strip) to equal strings under case-sensitive exact
comparison, divided by the number of pairs. -/
theorem exact_match_accuracy_correct (gold pred : List JsonVal)
    (getterGold getterPred : JsonVal → JsonVal) (h : gold.length = pred.length) :
    computeExactMatchAccuracy gold pred getterGold getterPred =
      if gold.length = 0 then 0
      else (∑ i in Finset.range gold.length,
          if specNormalize (getterGold (gold.getD i .null)) =
              specNormalize (getterPred (pred.getD i .null)) then (1 : ℚ) else 0) /
        (gold.length : ℚ) := by
  by_cases h0 : gold.length = 0
  · simp [computeExactMatchAccuracy, h0]
  · simp only [computeExactMatchAccuracy, h0, if_false]
    have hmin : min gold.length pred.length = gold.length := by omega
    rw [countP_zip_eq_sum, hmin]
    congr 1
    rw [Nat.cast_sum]
    refine Finset.sum_congr rfl fun i _ => ?_
    rw [normalizeScalar_eq_specNormalize]
    by_cases hi : specNormalize (getterGold (gold.getD i .null)) =
        specNormalize (getterPred (pred.getD i .null)) <;> simp [hi]

/-- Witness for C1 at a concrete input. -/
theorem exact_match_accuracy_correct_witness :
    ([JsonVal.str "x", JsonVal.null] : List JsonVal).length =
      ([JsonVal.str " x", JsonVal.str "y"] : List JsonVal).length ∧
    computeExactMatchAccuracy [JsonVal.str "x", JsonVal.null]
        [JsonVal.str " x", JsonVal.str "y"] id id =
      if ([JsonVal.str "x", JsonVal.null] : List JsonVal).length = 0 then 0
      else (∑ i in Finset.range ([JsonVal.str "x", JsonVal.null] : List JsonVal).length,
          if specNormalize (id (([JsonVal.str "x", JsonVal.null] : List JsonVal).getD i .null)) =
              specNormalize
                (id (([JsonVal.str " x", JsonVal.str "y"] : List JsonVal).getD i .null))
            then (1 : ℚ) else 0) /
        (([JsonVal.str "x", JsonVal.null] : List JsonVal).length : ℚ) :=
  ⟨rfl, exact_match_accuracy_correct _ _ id id rfl⟩

/-- C9: called directly with a prediction sequence no longer than the gold
sequence (gold nonempty), `compute_exact_match_accuracy` compares only the
first `len(pred)` pairs but divides by the full `len(gold)`, so every gold
record beyond the prediction length counts as incorrect; with an empty
prediction sequence the result is 0. -/
theorem exact_match_accuracy_short_pred (gold pred : List JsonVal)
    (getterGold getterPred : JsonVal → JsonVal)
    (hlen : pred.length ≤ gold.length) (hne : gold ≠ []) :
    computeExactMatchAccuracy gold pred getterGold getterPred =
      (∑ i in Finset.range pred.length,
        if specNormalize (getterGold (gold.getD i .null)) =
            specNormalize (getterPred (pred.getD i .null)) then (1 : ℚ) else 0) /
      (gold.length : ℚ) ∧
    (pred = [] → computeExactMatchAccuracy gold pred getterGold getterPred = 0) := by
  have h0 : gold.length ≠ 0 := fun hc => hne (List.length_eq_zero.mp hc)
  constructor
  · simp only [computeExactMatchAccuracy, h0, if_false]
    have hmin : min gold.length pred.length = pred.length := by omega
    rw [countP_zip_eq_sum, hmin]
    congr 1
    rw [Nat.cast_sum]
    refine Finset.sum_congr rfl fun i _ => ?_
    rw [normalizeScalar_eq_specNormalize]
    by_cases hi : specNormalize (getterGold (gold.getD i .null)) =
        specNormalize (getterPred (pred.getD i .null)) <;> simp [hi]
  · intro hp
    subst hp
    simp [computeExactMatchAccuracy, h0]

/-- Witness for C9 at a concrete input. -/
theorem exact_match_accuracy_short_pred_witness :
    ([] : List JsonVal).length ≤ ([JsonVal.str "a"] : List JsonVal).length ∧
    ([JsonVal.str "a"] : List JsonVal) ≠ [] ∧
    (computeExactMatchAccuracy [JsonVal.str "a"] ([] : List JsonVal) id id =
      (∑ i in Finset.range ([] : List JsonVal).length,
        if specNormalize (id (([JsonVal.str "a"] : List JsonVal).getD i .null)) =
            specNormalize (id (([] : List JsonVal).getD i .null)) then (1 : ℚ) else 0) /
      (([JsonVal.str "a"] : List JsonVal).length : ℚ) ∧
    (([] : List JsonVal) = [] →
      computeExactMatchAccuracy [JsonVal.str "a"] ([] : List JsonVal) id id = 0)) :=
  ⟨by decide, by decide,
    exact_match_accuracy_short_pred _ _ id id (by decide) (by decide)⟩

/-- Stripping a string item is `strip` of the string itself. -/
theorem stripItem_str (s : String) : stripItem (JsonVal.str s) = pyStrip s := rfl

/-- C2: `compute_list_recall` micro-averages: on the two-record input
gold = [a, b] / pred = [a] and gold = [c] / pred = [c] (with a, b distinct
after stripping) it returns 2/3, not the macro-average 3/4 of the
per-record recalls. -/
theorem list_recall_micro_average (a b c : String) (h : pyStrip a ≠ pyStrip b) :
    computeListRecall
        [JsonVal.list [JsonVal.str a, JsonVal.str b], JsonVal.list [JsonVal.str c]]
        [JsonVal.list [JsonVal.str a], JsonVal.list [JsonVal.str c]] id id = 2 / 3 ∧
    computeListRecall
        [JsonVal.list [JsonVal.str a, JsonVal.str b], JsonVal.list [JsonVal.str c]]
        [JsonVal.list [JsonVal.str a], JsonVal.list [JsonVal.str c]] id id ≠ 3 / 4 := by
  have hba : pyStrip b ≠ pyStrip a := fun hc => h hc.symm
  have h1 : computeListRecall
      [JsonVal.list [JsonVal.str a, JsonVal.str b], JsonVal.list [JsonVal.str c]]
      [JsonVal.list [JsonVal.str a], JsonVal.list [JsonVal.str c]] id id = 2 / 3 := by
    simp [computeListRecall, recordTP, recordFN, ensureList, stripItem_str,
      List.countP_cons, hba]
    simp only [if_neg h]
    norm_num
  refine ⟨h1, ?_⟩
  rw [h1]
  norm_num

/-- Witness for C2 at concrete strings. -/
theorem list_recall_micro_average_witness :
    pyStrip "a" ≠ pyStrip "b" ∧
    (computeListRecall
        [JsonVal.list [JsonVal.str "a", JsonVal.str "b"], JsonVal.list [JsonVal.str "c"]]
        [JsonVal.list [JsonVal.str "a"], JsonVal.list [JsonVal.str "c"]] id id = 2 / 3 ∧
    computeListRecall
        [JsonVal.list [JsonVal.str "a", JsonVal.str "b"], JsonVal.list [JsonVal.str "c"]]
        [JsonVal.list [JsonVal.str "a"], JsonVal.list [JsonVal.str "c"]] id id ≠ 3 / 4) :=
  ⟨by decide, list_recall_micro_average "a" "b" "c" (by decide)⟩

/-- Counting a Boolean predicate and its negation over a list covers every
element exactly once. -/
theorem countP_add_countP_not (p : JsonVal → Bool) :
    ∀ l : List JsonVal, l.countP p + l.countP (fun a => !p a) = l.length
  | [] => rfl
  | x :: l => by
      rw [List.countP_cons, List.countP_cons, List.length_cons,
        ← countP_add_countP_not p l]
      cases hx : p x <;> simp [hx] <;> omega

/-- In one record, true positives plus false negatives is the number of
gold items. -/
theorem recordTP_add_recordFN (getterGold getterPred : JsonVal → JsonVal)
    (gold pred : JsonVal) :
    recordTP getterGold getterPred gold pred + recordFN getterGold getterPred gold pred =
      (ensureList (getterGold gold)).length := by
  simp only [recordTP, recordFN]
  exact countP_add_countP_not _ _

/-- C3: when the total number of gold list items over the aligned records
is zero, `compute_list_recall` returns 1, whatever the predictions are. -/
theorem list_recall_empty_gold (gold pred : List JsonVal)
    (getterGold getterPred : JsonVal → JsonVal)
    (h : ((gold.zip pred).map fun gp => (ensureList (getterGold gp.1)).length).sum = 0) :
    computeListRecall gold pred getterGold getterPred = 1 := by
  have key : ((gold.zip pred).map fun gp => recordTP getterGold getterPred gp.1 gp.2).sum +
      ((gold.zip pred).map fun gp => recordFN getterGold getterPred gp.1 gp.2).sum =
      ((gold.zip pred).map fun gp => (ensureList (getterGold gp.1)).length).sum := by
    generalize gold.zip pred = pairs
    induction pairs with
    | nil => rfl
    | cons gp pairs ih =>
        simp only [List.map_cons, List.sum_cons]
        have hper := recordTP_add_recordFN getterGold getterPred gp.1 gp.2
        omega
  simp only [computeListRecall]
  rw [if_pos (by omega)]

/-- Witness for C3: nonempty predictions, empty gold lists. -/
theorem list_recall_empty_gold_witness :
    ((([JsonVal.list [], JsonVal.null] : List JsonVal).zip
        [JsonVal.list [JsonVal.str "x"], JsonVal.list [JsonVal.str "y"]]).map fun gp =>
      (ensureList (id gp.1)).length).sum = 0 ∧
    computeListRecall [JsonVal.list [], JsonVal.null]
      [JsonVal.list [JsonVal.str "x"], JsonVal.list [JsonVal.str "y"]] id id = 1 :=
  ⟨by decide, list_recall_empty_gold _ _ id id (by decide)⟩

/-- Per-record true positives are invariant under permutation of the
predicted list: membership of a stripped gold item is order-independent. -/
theorem recordTP_perm (getterGold getterPred : JsonVal → JsonVal) (g p q : JsonVal)
    (hperm : (ensureList (getterPred p)).Perm (ensureList (getterPred q))) :
    recordTP getterGold getterPred g p = recordTP getterGold getterPred g q := by
  simp only [recordTP]
  refine List.countP_congr fun gi _ => ?_
  simp only [decide_eq_true_eq]
  exact (hperm.map stripItem).mem_iff

/-- Per-record false negatives are invariant under permutation of the
predicted list. -/
theorem recordFN_perm (getterGold getterPred : JsonVal → JsonVal) (g p q : JsonVal)
    (hperm : (ensureList (getterPred p)).Perm (ensureList (getterPred q))) :
    recordFN getterGold getterPred g p = recordFN getterGold getterPred g q := by
  simp only [recordFN]
  refine List.countP_congr fun gi _ => ?_
  simp only [Bool.not_eq_true', decide_eq_false_iff_not]
  exact not_congr (hperm.map stripItem).mem_iff

/-- Summing a per-pair count over a zip only depends on the right-hand
list through the pointwise value of the count. -/
theorem zip_map_sum_congr (f : JsonVal × JsonVal → Nat) :
    ∀ (gold pred pred' : List JsonVal),
      List.Forall₂ (fun p q => ∀ g, f (g, p) = f (g, q)) pred pred' →
      ((gold.zip pred).map f).sum = ((gold.zip pred').map f).sum := by
  intro gold pred pred' h
  induction h generalizing gold with
  | nil => rfl
  | cons hpq htail ih =>
      cases gold with
      | nil => rfl
      | cons g gs =>
          simp only [List.zip_cons_cons, List.map_cons, List.sum_cons]
          rw [hpq g, ih gs]

/-- C8: `compute_list_recall` is invariant under permutation of each
record's predicted list: if each predicted record's item list is replaced
by a permutation of it, the recall is unchanged. -/
theorem list_recall_perm_invariant (gold pred pred' : List JsonVal)
    (getterGold getterPred : JsonVal → JsonVal)
    (h : List.Forall₂
      (fun p q => (ensureList (getterPred p)).Perm (ensureList (getterPred q)))
      pred pred') :
    computeListRecall gold pred getterGold getterPred =
      computeListRecall gold pred' getterGold getterPred := by
  have hTP := zip_map_sum_congr (fun gp => recordTP getterGold getterPred gp.1 gp.2)
    gold pred pred'
    (h.imp fun a b hab g => recordTP_perm getterGold getterPred g a b hab)
  have hFN := zip_map_sum_congr (fun gp => recordFN getterGold getterPred gp.1 gp.2)
    gold pred pred'
    (h.imp fun a b hab g => recordFN_perm getterGold getterPred g a b hab)
  simp only [computeListRecall]
  rw [hTP, hFN]

/-- Witness for C8: swapping the two predicted items leaves recall
unchanged. -/
theorem list_recall_perm_invariant_witness :
    List.Forall₂
      (fun p q => (ensureList (id p)).Perm (ensureList (id q)))
      [JsonVal.list [JsonVal.str "x", JsonVal.str "a"]]
      [JsonVal.list [JsonVal.str "a", JsonVal.str "x"]] ∧
    computeListRecall [JsonVal.list [JsonVal.str "a"]]
        [JsonVal.list [JsonVal.str "x", JsonVal.str "a"]] id id =
      computeListRecall [JsonVal.list [JsonVal.str "a"]]
        [JsonVal.list [JsonVal.str "a", JsonVal.str "x"]] id id :=
  ⟨List.Forall₂.cons (by decide) List.Forall₂.nil,
    list_recall_perm_invariant _ _ _ id id
      (List.Forall₂.cons (by decide) List.Forall₂.nil)⟩

/-- The spec's missing-path predicate agrees with the traversal loop
returning no value. -/
theorem pathMissing_iff_walk : ∀ (keys : List String) (o : JsonVal),
    pathMissing o keys = true ↔ walk o keys = none
  | [], o => by simp [pathMissing, walk]
  | k :: ks, o => by
      cases o with
      | obj fields =>
          cases hl : lookup fields k with
          | some v =>
              simp only [pathMissing, walk, hl]
              exact pathMissing_iff_walk ks v
          | none => simp [pathMissing, walk, hl]
      | null => simp [pathMissing, walk]
      | bool b => simp [pathMissing, walk]
      | int n => simp [pathMissing, walk]
      | str s => simp [pathMissing, walk]
      | list xs => simp [pathMissing, walk]

/-- C4: `_get_nested` returns the typed default (empty string without
`want list`, empty sequence with it) as soon as the path misses — an
intermediate value is not a mapping or a key is absent — and returns the
empty sequence when `want list` holds but the final value is not a list.
(The embedding is a total function: no exception is possible.) -/
theorem get_nested_defaults (o : JsonVal) (keys : List String) (wl : Bool) :
    (pathMissing o keys = true →
      getNested o keys wl = (if wl then JsonVal.list [] else JsonVal.str "")) ∧
    (∀ v, walk o keys = some v → v.isList = false →
      getNested o keys true = JsonVal.list []) := by
  constructor
  · intro h
    have hw := (pathMissing_iff_walk keys o).mp h
    simp [getNested, hw]
  · intro v hv hnl
    simp only [getNested, hv]
    cases v <;> simp_all [JsonVal.isList]

/-- Witness for C4: intermediate value `1` is not a mapping. -/
theorem get_nested_defaults_witness :
    pathMissing (JsonVal.obj [("a", JsonVal.int 1)]) ["a", "b"] = true ∧
    getNested (JsonVal.obj [("a", JsonVal.int 1)]) ["a", "b"] false = JsonVal.str "" :=
  ⟨by decide,
    (get_nested_defaults (JsonVal.obj [("a", JsonVal.int 1)]) ["a", "b"] false).1
      (by decide)⟩

/-- The spec invariant's result type: a string or a sequence of strings. -/
def isStrOrStrList (v : JsonVal) : Bool :=
  match v with
  | .str _ => true
  | .list xs => xs.all JsonVal.isStr
  | _ => false

/-- C5 counterexample: on a record whose `diabetes.type` field holds the
number 5, the diabetes-type getter returns the raw number 5, which is
neither a string nor a sequence of strings. -/
theorem accessor_invariant_counterexample :
    getDiabetesType (JsonVal.obj [("diabetes", JsonVal.obj [("type", JsonVal.int 5)])]) =
      JsonVal.int 5 ∧
    isStrOrStrList
      (getDiabetesType (JsonVal.obj [("diabetes", JsonVal.obj [("type", JsonVal.int 5)])])) =
      false := by
  constructor <;> rfl

/-- C5 amended: every getter is total (never raises); the list getters
always return a sequence and pass the stored list through unchanged
(non-string items included); the scalar getters return a string whenever
the value at the path is absent, null, or itself a string — but return
the stored value unchanged (for example a raw number) whenever it is
truthy, string or not. -/
theorem accessor_amended_invariant (o : JsonVal) (keys : List String) :
    (listGet keys o).isList = true ∧
    (walk o keys = none → scalarGet keys o = JsonVal.str "") ∧
    (walk o keys = some JsonVal.null → scalarGet keys o = JsonVal.str "") ∧
    (∀ s, walk o keys = some (JsonVal.str s) → (scalarGet keys o).isStr = true) ∧
    (∀ v, walk o keys = some v → truthy v = true → scalarGet keys o = v) ∧
    (∀ xs, walk o keys = some (JsonVal.list xs) → listGet keys o = JsonVal.list xs) := by
  refine ⟨rfl, ?_, ?_, ?_, ?_, ?_⟩
  · intro hw
    simp [scalarGet, getNested, hw, truthy]
  · intro hw
    simp [scalarGet, getNested, hw, truthy]
  · intro s hw
    simp only [scalarGet, getNested, hw]
    by_cases hs : s = ""
    · subst hs
      simp [truthy, JsonVal.isStr]
    · simp [truthy, hs, JsonVal.isStr]
  · intro v hw ht
    have hnn : v ≠ JsonVal.null := by
      intro hc
      subst hc
      simp [truthy] at ht
    have h1 : getNested o keys false = v := by
      simp [getNested, hw, hnn]
    simp [scalarGet, h1, ht]
  · intro xs hw
    simp [listGet, getNested, hw, ensureList]

/-- Witness for the amended C5: a missing path yields the empty string,
and a truthy non-string value at a scalar path passes through unchanged. -/
theorem accessor_amended_invariant_witness :
    walk JsonVal.null ["diabetes", "type"] = none ∧
    scalarGet ["diabetes", "type"] JsonVal.null = JsonVal.str "" ∧
    (walk (JsonVal.obj [("diabetes", JsonVal.obj [("type", JsonVal.int 5)])])
        ["diabetes", "type"] = some (JsonVal.int 5) ∧
      truthy (JsonVal.int 5) = true ∧
      scalarGet ["diabetes", "type"]
          (JsonVal.obj [("diabetes", JsonVal.obj [("type", JsonVal.int 5)])]) =
        JsonVal.int 5) :=
  ⟨rfl, (accessor_amended_invariant JsonVal.null ["diabetes", "type"]).2.1 rfl,
    rfl, rfl,
    (accessor_amended_invariant
        (JsonVal.obj [("diabetes", JsonVal.obj [("type", JsonVal.int 5)])])
        ["diabetes", "type"]).2.2.2.2.1 (JsonVal.int 5) rfl rfl⟩

/-- C6: `run_validation` aligns the two loaded sequences positionally,
truncating both to the shorter length: the reported sample count is
`min(len(gold), len(pred))`, and the whole metric mapping is unchanged
when both inputs are truncated to that length (so records beyond it are
never read; the embedding is total, so no error is raised). -/
theorem run_validation_truncates (gold pred : List JsonVal) :
    (runValidationCore gold pred).n_samples = min gold.length pred.length ∧
    runValidationCore gold pred =
      runValidationCore (gold.take (min gold.length pred.length))
        (pred.take (min gold.length pred.length)) := by
  have hg : (gold.take (min gold.length pred.length)).length =
      min gold.length pred.length := by
    rw [List.length_take]
    omega
  have hp : (pred.take (min gold.length pred.length)).length =
      min gold.length pred.length := by
    rw [List.length_take]
    omega
  constructor
  · by_cases h0 : min gold.length pred.length = 0
    · simp [runValidationCore, h0]
    · simp [runValidationCore, h0]
  · simp only [runValidationCore, hg, hp, Nat.min_self, List.take_take]

/-- C10: whenever the minimum of the two sequence lengths is zero,
`run_validation` returns the fixed mapping (0 samples, accuracies 0,
recalls 1) regardless of the record contents. -/
theorem run_validation_zero_samples (gold pred : List JsonVal)
    (h : min gold.length pred.length = 0) :
    runValidationCore gold pred =
      { n_samples := 0
        diabetes_type_accuracy := 0
        diabetes_status_accuracy := 0
        diabetes_a1c_recall := 1
        diabetes_glucose_recall := 1
        bp_hypertension_status_accuracy := 0
        bp_readings_recall := 1 } := by
  simp [runValidationCore, h]

/-- Witness for C10: empty gold list against a nonempty prediction list. -/
theorem run_validation_zero_samples_witness :
    min ([] : List JsonVal).length ([JsonVal.null] : List JsonVal).length = 0 ∧
    runValidationCore [] [JsonVal.null] =
      { n_samples := 0
        diabetes_type_accuracy := 0
        diabetes_status_accuracy := 0
        diabetes_a1c_recall := 1
        diabetes_glucose_recall := 1
        bp_hypertension_status_accuracy := 0
        bp_readings_recall := 1 } :=
  ⟨rfl, run_validation_zero_samples [] [JsonVal.null] rfl⟩

/-- C7: the loader fails with not-found exactly when the path does not
exist and with a format error exactly when the parsed top-level value is
not a list; load errors propagate through `run_validation` to `main`,
which reports one message, exits nonzero, and prints no metrics report,
while a successful run exits 0 with the full report. -/
theorem loader_and_main_errors :
    (∀ (path : String) (content : FileContent),
      (∃ m, loadJson path content = Except.error (LoadError.notFound m)) ↔
        content = none) ∧
    (∀ (path : String) (content : FileContent) (v : JsonVal),
      content = some (Except.ok v) →
      ((∃ m, loadJson path content = Except.error (LoadError.formatError m)) ↔
        v.isList = false)) ∧
    (∀ (gp pp : String) (gc pc : FileContent),
      (∃ e, runValidationFromFiles gp pp gc pc = Except.error e) ↔
      ((∃ e, loadJson gp gc = Except.error e) ∨ (∃ e, loadJson pp pc = Except.error e))) ∧
    (∀ (gp pp : String) (gc pc : FileContent) (e : LoadError),
      runValidationFromFiles gp pp gc pc = Except.error e →
      mainRun gp pp gc pc =
        { exitCode := 1, report := none, errMsg := some ("Error: " ++ e.msg) }) ∧
    (∀ (gp pp : String) (gc pc : FileContent) (m : Metrics),
      runValidationFromFiles gp pp gc pc = Except.ok m →
      mainRun gp pp gc pc = { exitCode := 0, report := some m, errMsg := none }) := by
  refine ⟨?_, ?_, ?_, ?_, ?_⟩
  · intro path content
    match content with
    | none => simp [loadJson]
    | some (Except.error m) => simp [loadJson]
    | some (Except.ok v) => cases v <;> simp [loadJson]
  · intro path content v hc
    subst hc
    cases v <;> simp [loadJson, JsonVal.isList]
  · intro gp pp gc pc
    cases h1 : loadJson gp gc with
    | error e => simp [runValidationFromFiles, h1]
    | ok gl =>
        cases h2 : loadJson pp pc with
        | error e => simp [runValidationFromFiles, h1, h2]
        | ok pl => simp [runValidationFromFiles, h1, h2]
  · intro gp pp gc pc e hv
    simp [mainRun, hv]
  · intro gp pp gc pc m hm
    simp [mainRun, hm]

/-- Witness for C7: a top-level JSON object is rejected with a format
error. -/
theorem loader_and_main_errors_witness :
    ((some (Except.ok (JsonVal.obj [])) : FileContent) =
      some (Except.ok (JsonVal.obj []))) ∧
    ((∃ m, loadJson "gold.json" (some (Except.ok (JsonVal.obj []))) =
        Except.error (LoadError.formatError m)) ↔ (JsonVal.obj []).isList = false) :=
  ⟨rfl, loader_and_main_errors.2.1 "gold.json" _ (JsonVal.obj []) rfl⟩

end ValidateExtraction
